import Mathlib

/-!
Verification development for the dragonfly slice consisting of
`src/server/common.h` and `src/server/memory_cmd.cc`.

The C++ data types and operations are shallowly embedded as Lean
definitions; machine integers (`unsigned`, `uint32_t`) are modelled as
`Nat` with explicit `% 2 ^ 32` where wraparound matters.
-/

namespace Dragonfly

/-! ## GenericError (common.h, class GenericError)

`std::error_code` is modelled by its integer value: `code = 0` is the
zero/OK code, and `operator bool` on an error code is "value is nonzero".
-/

/-- Embeds `GenericError`: an error code value plus a details string. -/
structure GenericError where
  code : Nat
  details : String
deriving DecidableEq, Repr

/-- Embeds `GenericError::operator bool()`: true iff the error code is nonzero. -/
def GenericError.isSet (e : GenericError) : Bool :=
  e.code != 0

/-- Embeds the default-constructed `GenericError{}`: zero code, empty details. -/
def GenericError.empty : GenericError :=
  ⟨0, ""⟩

/-! ## Cancellation and Context (common.h, struct Cancellation / class Context)

The observable state of a `Context` is its boolean cancellation flag
(`Cancellation::flag_`) plus its stored error (`Context::err_`).
The error handler, when installed, is a function from candidate errors
to `Bool` (the C++ `ErrHandler`).
-/

/-- State of a `Context`: the `Cancellation` flag plus the stored `err_`. -/
structure ContextState where
  cancelled : Bool
  err : GenericError
deriving DecidableEq, Repr

/-- Embeds the freshly constructed `Context`: flag false, default error. -/
def ContextState.init : ContextState :=
  ⟨false, GenericError.empty⟩

/-- The C++ `Context::ErrHandler` type. -/
abbrev ErrHandler := GenericError → Bool

/-- Embeds `!err_handler_ || err_handler_(new_err)`: an absent handler accepts
every candidate, otherwise the handler decides. -/
def handlerOk : Option ErrHandler → GenericError → Bool
  | none, _ => true
  | some h, e => h e

/-- Embeds one call to `Context::Error`: if `err_` is already truthy the call
returns early; otherwise, if the handler (or its absence) accepts the
candidate, the candidate is stored and `Cancel()` is invoked. -/
def errorStep (h : Option ErrHandler) (st : ContextState) (c : GenericError) : ContextState :=
  if st.err.isSet then st
  else if handlerOk h c then { cancelled := true, err := c } else st

/-- A sequence of `Context::Error` calls, applied left to right. -/
def runTrace (h : Option ErrHandler) : ContextState → List GenericError → ContextState
  | st, [] => st
  | st, c :: cs => runTrace h (errorStep h st c) cs

/-- Whether one `Context::Error` call assigns `err_`: the call did not return
early and the candidate was accepted. -/
def errorAssigned (h : Option ErrHandler) (st : ContextState) (c : GenericError) : Bool :=
  !st.err.isSet && handlerOk h c

/-- Runs a trace of `Context::Error` calls while counting the assignments to
`err_` whose candidate satisfies `f`. -/
def runTraceCount (h : Option ErrHandler) (f : GenericError → Bool) :
    ContextState × Nat → List GenericError → ContextState × Nat
  | p, [] => p
  | (st, n), c :: cs =>
      runTraceCount h f (errorStep h st c, if errorAssigned h st c && f c then n + 1 else n) cs

/-- Number of assignments to `err_` along a trace started from a fresh context. -/
def countAssigns (h : Option ErrHandler) (l : List GenericError) : Nat :=
  (runTraceCount h (fun _ => true) (ContextState.init, 0) l).2

/-- Number of assignments to `err_` of a non-empty candidate along a trace
started from a fresh context. -/
def countNonEmptyAssigns (h : Option ErrHandler) (l : List GenericError) : Nat :=
  (runTraceCount h GenericError.isSet (ContextState.init, 0) l).2

/-! ## AggregateValue (common.h, template struct AggregateValue)

`T{}` is modelled by `default` of an `Inhabited` instance, and `==`/`!=`
by decidable equality.  `operator=` both updates the latched value and
returns a `Bool`; it is embedded as a function producing the pair. -/

/-- Embeds `AggregateValue<T>::operator=`: stores `val` only when the current
value is still default and `val` is not, and returns whether `val` is
non-default. -/
def aggWrite {T : Type} [DecidableEq T] [Inhabited T] (current val : T) : T × Bool :=
  (if current = default ∧ val ≠ default then val else current, decide (val ≠ (default : T)))

/-- A sequence of writes to an `AggregateValue<T>`, tracking the stored value. -/
def runWrites {T : Type} [DecidableEq T] [Inhabited T] (current : T) (l : List T) : T :=
  l.foldl (fun c v => (aggWrite c v).1) current

/-! ## KeyIndex (common.h, struct KeyIndex)

All four fields are C++ `unsigned`; arithmetic wraps modulo `2 ^ 32`. -/

/-- Embeds `struct KeyIndex`. -/
structure KeyIndex where
  bonus : Nat
  start : Nat
  «end» : Nat
  step : Nat
deriving DecidableEq, Repr

/-- Embeds `KeyIndex::HasSingleKey`: `bonus == 0 && (start + step >= end)`,
with the unsigned addition wrapping modulo `2 ^ 32`. -/
def KeyIndex.HasSingleKey (k : KeyIndex) : Bool :=
  k.bonus == 0 && decide (k.«end» ≤ (k.start + k.step) % 2 ^ 32)

/-- Embeds `KeyIndex::num_args`: `end - start + (bonus > 0)` in unsigned
arithmetic; `end - start` wraps modulo `2 ^ 32`, as does the final sum. -/
def KeyIndex.num_args (k : KeyIndex) : Nat :=
  ((k.«end» + 2 ^ 32 - k.start) % 2 ^ 32 + (if 0 < k.bonus then 1 else 0)) % 2 ^ 32

/-! ## MemoryCmd (memory_cmd.cc)

`MemoryCmd::Run` inspects `args` (the full command argument vector, with
the sub-command at index 1) and replies via the connection context.  A
reply is modelled by which send call runs: `SendLong`, `SendBulkString`
of the `MallocStats` report produced on the dispatched shard (recorded by
its shard id), or `SendError` with one of the two error shapes the code
produces.  `shard_set->pool()->size()` is the `nshards` parameter. -/

/-- The two `SendError` shapes in `MemoryCmd::Run`: `kInvalidIntErr`, and
`UnknownSubCmd(sub_cmd, "MEMORY")` sent with `kSyntaxErrType`. -/
inductive ErrReply where
  | invalidInt
  | unknownSubCmd (sub : String) (family : String)
deriving DecidableEq, Repr

/-- Observable reply of `MemoryCmd::Run`: `SendLong n`, `SendBulkString` of the
report computed on shard `tid`, or `SendError`. -/
inductive Reply where
  | long (n : Int)
  | bulkString (tid : Nat)
  | err (e : ErrReply)
deriving DecidableEq, Repr

/-- Value of a decimal digit string read left to right. -/
def digitsToNat (s : String) : Nat :=
  s.data.foldl (fun a c => a * 10 + (c.toNat - 48)) 0

/-- Embeds `absl::SimpleAtoi` at type `uint32_t`: succeeds exactly on nonempty
all-digit strings whose value fits in 32 bits. -/
def simpleAtoiU32 (s : String) : Option Nat :=
  if s.data ≠ [] ∧ s.data.all Char.isDigit ∧ digitsToNat s < 2 ^ 32 then
    some (digitsToNat s)
  else
    none

/-- Embeds `MemoryCmd::Run`: dispatches on `sub_cmd = ArgS(args, 1)`.
`USAGE` sends the placeholder long `1`.  `MALLOC-STATS` parses the optional
shard selector at index 2 (`tid` stays `0` when fewer than three arguments
are given), reduces it modulo the shard count and awaits `MallocStats(tid)`
on that shard.  Anything else sends the unknown-sub-command error naming the
`MEMORY` family. -/
def MemoryCmd.run (args : List String) (nshards : Nat) : Reply :=
  let sub_cmd := args.getD 1 ""
  if sub_cmd = "USAGE" then
    .long 1
  else if sub_cmd = "MALLOC-STATS" then
    if 3 ≤ args.length then
      match simpleAtoiU32 (args.getD 2 "") with
      | none => .err .invalidInt
      | some tid => .bulkString (tid % nshards)
    else
      .bulkString (0 % nshards)
  else
    .err (.unknownSubCmd sub_cmd "MEMORY")

/-! ## Block histograms (memory_cmd.cc, MiArenaVisit / MallocStats)

A `BlockMap` maps a block shape `(block_size, reserved, committed, used)`
to its count; absent keys count `0`, matching `absl::flat_hash_map`
value-initialisation under `operator[]`. -/

/-- The `BlockKey` tuple `(block_size, reserved, committed, used)`. -/
abbrev BlockKey := Nat × Nat × Nat × Nat

/-- A block histogram: counts per block shape. -/
abbrev BlockMap := BlockKey → Nat

/-- Embeds one `MiArenaVisit` callback: increments the count of the key
`{block_size, area->reserved, area->committed, area->used * block_size}`. -/
def miArenaVisit (bmap : BlockMap) (blockSize reserved committed used : Nat) : BlockMap :=
  fun k => if k = (blockSize, reserved, committed, used * blockSize) then bmap k + 1 else bmap k

/-- The three running totals accumulated by `MemoryCmd::MallocStats`. -/
structure Totals where
  reserved : Nat
  committed : Nat
  used : Nat
deriving DecidableEq, Repr

/-- Embeds the totals loop of `MemoryCmd::MallocStats`: over the histogram
entries, add `count * reserved`, `count * committed`, `count * used` to the
three totals, which start at zero. -/
def statsLoop (entries : List (BlockKey × Nat)) : Totals :=
  entries.foldl
    (fun t kv =>
      { reserved := t.reserved + kv.2 * kv.1.2.1
        committed := t.committed + kv.2 * kv.1.2.2.1
        used := t.used + kv.2 * kv.1.2.2.2 })
    ⟨0, 0, 0⟩

/-- Modelled from the spec: the `ShardFanout` report-merge step of §4.6 is not
part of the sources under `src/` (only the per-shard histogram construction
and the totals loop are); per the spec it "unions all shard histograms by
key, summing counts". -/
def mergeReport (a b : BlockMap) : BlockMap :=
  fun k => a k + b k

/-- Modelled from the spec: the empty aggregate report every merge starts from. -/
def emptyReport : BlockMap :=
  fun _ => 0

/-- Folds a collection of shard reports into one aggregate report. -/
def mergeAll (rs : List BlockMap) : BlockMap :=
  rs.foldr mergeReport emptyReport

/-- The histogram entries of a report restricted to a given key list, in that
order; feeds a report to the `MallocStats` totals loop. -/
def entriesOf (keys : List BlockKey) (m : BlockMap) : List (BlockKey × Nat) :=
  keys.map (fun k => (k, m k))

/-! ## Helper lemmas about Context traces -/

theorem errorStep_of_isSet (h : Option ErrHandler) (st : ContextState) (c : GenericError)
    (hs : st.err.isSet = true) : errorStep h st c = st := by
  simp [errorStep, hs]

theorem runTrace_of_isSet (h : Option ErrHandler) (st : ContextState) (l : List GenericError)
    (hs : st.err.isSet = true) : runTrace h st l = st := by
  induction l with
  | nil => rfl
  | cons c cs ih => rw [runTrace, errorStep_of_isSet h st c hs]; exact ih

theorem runTrace_append (h : Option ErrHandler) (st : ContextState)
    (l₁ l₂ : List GenericError) :
    runTrace h st (l₁ ++ l₂) = runTrace h (runTrace h st l₁) l₂ := by
  induction l₁ generalizing st with
  | nil => rfl
  | cons c cs ih => rw [List.cons_append, runTrace, runTrace, ih]

theorem errorStep_cancelled_mono (h : Option ErrHandler) (st : ContextState) (c : GenericError)
    (hc : st.cancelled = true) : (errorStep h st c).cancelled = true := by
  unfold errorStep
  split
  · exact hc
  · split
    · rfl
    · exact hc

theorem runTrace_cancelled_mono (h : Option ErrHandler) (st : ContextState)
    (l : List GenericError) (hc : st.cancelled = true) :
    (runTrace h st l).cancelled = true := by
  induction l generalizing st with
  | nil => exact hc
  | cons c cs ih => exact ih _ (errorStep_cancelled_mono h st c hc)

theorem errorStep_of_assigned (h : Option ErrHandler) (st : ContextState) (c : GenericError)
    (ha : errorAssigned h st c = true) : errorStep h st c = ⟨true, c⟩ := by
  simp only [errorAssigned, Bool.and_eq_true, Bool.not_eq_true'] at ha
  simp [errorStep, ha.1, ha.2]

theorem errorStep_of_not_assigned (h : Option ErrHandler) (st : ContextState) (c : GenericError)
    (ha : errorAssigned h st c = false) : errorStep h st c = st := by
  simp only [errorAssigned, Bool.and_eq_false_iff, Bool.not_eq_false'] at ha
  rcases ha with hs | hok
  · exact errorStep_of_isSet h st c hs
  · simp [errorStep, hok]

theorem runTraceCount_step (h : Option ErrHandler) (f : GenericError → Bool)
    (st : ContextState) (n : Nat) (c : GenericError) (cs : List GenericError) :
    runTraceCount h f (st, n) (c :: cs) =
      runTraceCount h f (errorStep h st c, if errorAssigned h st c && f c then n + 1 else n)
        cs := rfl

theorem nonEmpty_assign_bound (h : Option ErrHandler) (l : List GenericError) :
    ∀ (st : ContextState) (n : Nat),
      (st.err.isSet = true → (runTraceCount h GenericError.isSet (st, n) l).2 = n) ∧
      (runTraceCount h GenericError.isSet (st, n) l).2 ≤ n + 1 := by
  induction l with
  | nil => exact fun st n => ⟨fun _ => rfl, Nat.le_succ n⟩
  | cons c cs ih =>
    intro st n
    by_cases ha : errorAssigned h st c = true
    · have hstep := errorStep_of_assigned h st c ha
      have hsf : st.err.isSet = false := by
        simp only [errorAssigned, Bool.and_eq_true, Bool.not_eq_true'] at ha
        exact ha.1
      rw [runTraceCount_step, hstep, ha]
      by_cases hcs : GenericError.isSet c = true
      · rw [hcs]
        simp only [Bool.and_self, eq_self_iff_true, if_true]
        have hset : (⟨true, c⟩ : ContextState).err.isSet = true := hcs
        refine ⟨fun hs => ?_, le_of_eq ((ih _ _).1 hset)⟩
        rw [hsf] at hs
        exact absurd hs Bool.false_ne_true
      · have hcs' : GenericError.isSet c = false := by simpa using hcs
        rw [hcs']
        simp only [Bool.and_false, Bool.false_eq_true, if_false]
        refine ⟨fun hs => ?_, (ih _ _).2⟩
        rw [hsf] at hs
        exact absurd hs Bool.false_ne_true
    · have ha' : errorAssigned h st c = false := by simpa using ha
      rw [runTraceCount_step, errorStep_of_not_assigned h st c ha', ha']
      simp only [Bool.false_and, Bool.false_eq_true, if_false]
      exact ih st n

theorem assign_cancels (h : Option ErrHandler) (l : List GenericError) :
    ∀ (st : ContextState) (n : Nat),
      n < (runTraceCount h (fun _ => true) (st, n) l).2 →
      (runTrace h st l).cancelled = true := by
  induction l with
  | nil => exact fun st n hlt => absurd hlt (lt_irrefl n)
  | cons c cs ih =>
    intro st n hlt
    by_cases ha : errorAssigned h st c = true
    · rw [runTrace]
      exact runTrace_cancelled_mono h _ cs (by rw [errorStep_of_assigned h st c ha])
    · have ha' : errorAssigned h st c = false := by simpa using ha
      rw [runTrace, errorStep_of_not_assigned h st c ha']
      apply ih st n
      rw [runTraceCount_step, errorStep_of_not_assigned h st c ha', ha'] at hlt
      simpa using hlt

/-! ## Claims C1 and C3 -/

theorem runTrace_policy_pre (X : Nat) (pre : List GenericError)
    (hpre : ∀ e ∈ pre, e.code = X) :
    runTrace (some (fun e => e.code != X)) ContextState.init pre = ContextState.init := by
  induction pre with
  | nil => rfl
  | cons c cs ih =>
    have hc : c.code = X := hpre c (List.mem_cons_self c cs)
    have hstep : errorStep (some (fun e => e.code != X)) ContextState.init c =
        ContextState.init := by
      simp [errorStep, handlerOk, GenericError.isSet, ContextState.init, GenericError.empty, hc]
    rw [runTrace, hstep]
    exact ih fun e he => hpre e (List.mem_cons_of_mem c he)

/-- Claim C1 (amended): for a Context with error handler `p(e) = (e.code != X)`,
calling `Error(X, d)` any number of times leaves `IsCancelled() == false` and no
stored error; a subsequent call `Error(Y, d')` with `Y ≠ X` sets
`IsCancelled() == true` and the stored error to `⟨Y, d'⟩`; and, provided `Y` is
not the zero/OK code, every further `Error` call (with any code) leaves the
stored error unchanged at `⟨Y, d'⟩`. -/
theorem context_accept_policy (X Y : Nat) (d' : String) (pre suf : List GenericError)
    (hpre : ∀ e ∈ pre, e.code = X) (hYX : Y ≠ X) (hY0 : Y ≠ 0) :
    runTrace (some (fun e => e.code != X)) ContextState.init pre = ContextState.init ∧
    (runTrace (some (fun e => e.code != X)) ContextState.init
        (pre ++ ⟨Y, d'⟩ :: suf)).cancelled = true ∧
    (runTrace (some (fun e => e.code != X)) ContextState.init
        (pre ++ ⟨Y, d'⟩ :: suf)).err = ⟨Y, d'⟩ := by
  have h1 := runTrace_policy_pre X pre hpre
  have hstep : errorStep (some (fun e => e.code != X)) ContextState.init ⟨Y, d'⟩ =
      ⟨true, ⟨Y, d'⟩⟩ := by
    simp [errorStep, handlerOk, GenericError.isSet, ContextState.init, GenericError.empty, hYX]
  have h2 : runTrace (some (fun e => e.code != X)) ContextState.init (pre ++ ⟨Y, d'⟩ :: suf) =
      ⟨true, ⟨Y, d'⟩⟩ := by
    rw [runTrace_append, h1, runTrace, hstep]
    exact runTrace_of_isSet _ _ _ (by simp [GenericError.isSet, hY0])
  exact ⟨h1, by rw [h2], by rw [h2]⟩

/-- Claim C1 counterexample: with handler `p(e) = (e.code != 1)` (so `X = 1`),
the call `Error(0, "a")` is accepted (`Y = 0 ≠ X`), sets `IsCancelled()` and
stores the error with code `0`; but because the stored error is empty, the
further call `Error(2, "b")` replaces it — the stored error does not stay at
`Y`, refuting the claim as stated. -/
theorem context_accept_policy_cex :
    runTrace (some (fun e => e.code != 1)) ContextState.init [⟨0, "a"⟩] =
      ⟨true, ⟨0, "a"⟩⟩ ∧
    (runTrace (some (fun e => e.code != 1)) ContextState.init
        [⟨0, "a"⟩, ⟨2, "b"⟩]).err = ⟨2, "b"⟩ ∧
    (runTrace (some (fun e => e.code != 1)) ContextState.init
        [⟨0, "a"⟩, ⟨2, "b"⟩]).err.code ≠ 0 := by
  refine ⟨by decide, by decide, by decide⟩

/-- Claim C1 witness: the amended theorem applied at `X = 1`, `Y = 2`,
two ignored calls before, and two further calls after. -/
theorem context_accept_policy_witness :
    runTrace (some (fun e => e.code != 1)) ContextState.init [⟨1, "a"⟩, ⟨1, "b"⟩] =
      ContextState.init ∧
    (runTrace (some (fun e => e.code != 1)) ContextState.init
        ([⟨1, "a"⟩, ⟨1, "b"⟩] ++ ⟨2, "y"⟩ :: [⟨3, "c"⟩, ⟨1, "d"⟩])).cancelled = true ∧
    (runTrace (some (fun e => e.code != 1)) ContextState.init
        ([⟨1, "a"⟩, ⟨1, "b"⟩] ++ ⟨2, "y"⟩ :: [⟨3, "c"⟩, ⟨1, "d"⟩])).err = ⟨2, "y"⟩ :=
  context_accept_policy 1 2 "y" [⟨1, "a"⟩, ⟨1, "b"⟩] [⟨3, "c"⟩, ⟨1, "d"⟩]
    (by decide) (by decide) (by decide)

/-- Claim C3 (amended): along any sequence of `Error` calls on a fresh Context
with any error handler, `stored_error` is assigned a non-empty value at most
once (assignments of an empty candidate may repeat while the stored error is
still empty); and from the moment any candidate is assigned, `IsCancelled()`
returns true for the rest of the context's lifetime. -/
theorem context_single_assignment (h : Option ErrHandler) (pre suf : List GenericError) :
    countNonEmptyAssigns h (pre ++ suf) ≤ 1 ∧
    (1 ≤ countAssigns h pre →
      (runTrace h ContextState.init (pre ++ suf)).cancelled = true) := by
  constructor
  · exact (nonEmpty_assign_bound h (pre ++ suf) ContextState.init 0).2
  · intro h1
    have hc : (runTrace h ContextState.init pre).cancelled = true :=
      assign_cancels h pre ContextState.init 0 h1
    rw [runTrace_append]
    exact runTrace_cancelled_mono h _ suf hc

/-- Claim C3 counterexample: with no error handler, the calls
`Error(0, "a"); Error(5, "b")` both assign `stored_error` — the first stores an
empty error (zero/OK code), which does not block the second — so the field is
assigned twice, refuting "assigned at most once". -/
theorem context_single_assignment_cex :
    ¬ (countAssigns none [⟨0, "a"⟩, ⟨5, "b"⟩] ≤ 1) := by decide

/-- Claim C3 witness: the amended theorem applied with no handler,
`pre = [Error(0, "a")]` (one assignment, of an empty candidate) and
`suf = [Error(5, "b")]`. -/
theorem context_single_assignment_witness :
    countNonEmptyAssigns none ([⟨0, "a"⟩] ++ [⟨5, "b"⟩]) ≤ 1 ∧
    (runTrace none ContextState.init ([⟨0, "a"⟩] ++ [⟨5, "b"⟩])).cancelled = true :=
  ⟨(context_single_assignment none [⟨0, "a"⟩] [⟨5, "b"⟩]).1,
   (context_single_assignment none [⟨0, "a"⟩] [⟨5, "b"⟩]).2 (by decide)⟩

/-! ## Helper lemmas about AggregateValue writes -/

theorem aggWrite_of_ne_default {T : Type} [DecidableEq T] [Inhabited T] (c v : T)
    (hc : c ≠ default) : (aggWrite c v).1 = c := by
  simp [aggWrite, hc]

theorem runWrites_of_ne_default {T : Type} [DecidableEq T] [Inhabited T] (c : T)
    (l : List T) (hc : c ≠ default) : runWrites c l = c := by
  induction l with
  | nil => rfl
  | cons v vs ih =>
    show runWrites (aggWrite c v).1 vs = c
    rw [aggWrite_of_ne_default c v hc]
    exact ih

theorem runWrites_append {T : Type} [DecidableEq T] [Inhabited T] (c : T)
    (l₁ l₂ : List T) : runWrites c (l₁ ++ l₂) = runWrites (runWrites c l₁) l₂ := by
  simp [runWrites, List.foldl_append]

theorem runWrites_first {T : Type} [DecidableEq T] [Inhabited T] (l : List T)
    (hne : runWrites (default : T) l ≠ default) :
    l.find? (fun v => decide (v ≠ (default : T))) = some (runWrites default l) := by
  induction l with
  | nil => exact absurd rfl hne
  | cons v vs ih =>
    by_cases hv : v = default
    · have hstep : (aggWrite (default : T) v).1 = default := by simp [aggWrite, hv]
      have hrun : runWrites (default : T) (v :: vs) = runWrites default vs := by
        show runWrites (aggWrite (default : T) v).1 vs = _
        rw [hstep]
      rw [hrun] at hne ⊢
      rw [List.find?_cons_of_neg _ (by simp [hv])]
      exact ih hne
    · have hstep : (aggWrite (default : T) v).1 = v := by simp [aggWrite, hv]
      have hrun : runWrites (default : T) (v :: vs) = v := by
        show runWrites (aggWrite (default : T) v).1 vs = v
        rw [hstep]
        exact runWrites_of_ne_default v vs hv
      rw [hrun, List.find?_cons_of_pos _ (by simp [hv])]

/-! ## Claims C2 and C5 -/

/-- Claim C2: for every sequence of writes to an `AggregateValue<T>` starting
from the default value, once the stored value is non-default it is never
changed by any later write, and the final stored value, if non-default, is the
first non-default candidate written in the sequence. -/
theorem latch_first_value {T : Type} [DecidableEq T] [Inhabited T] (pre suf : List T) :
    (runWrites (default : T) pre ≠ default →
      runWrites (default : T) (pre ++ suf) = runWrites (default : T) pre) ∧
    (runWrites (default : T) (pre ++ suf) ≠ default →
      (pre ++ suf).find? (fun v => decide (v ≠ (default : T))) =
        some (runWrites (default : T) (pre ++ suf))) := by
  constructor
  · intro hne
    rw [runWrites_append]
    exact runWrites_of_ne_default _ suf hne
  · exact runWrites_first (pre ++ suf)

/-- Claim C2 witness: over `Nat` (default `0`), the writes `0, 5` latch `5`,
and the later writes `7, 0` leave it unchanged; `5` is also the first
non-default candidate of the whole sequence. -/
theorem latch_first_value_witness :
    runWrites (default : Nat) [0, 5] ≠ default ∧
    runWrites (default : Nat) ([0, 5] ++ [7, 0]) = runWrites (default : Nat) [0, 5] ∧
    ([0, 5] ++ [7, 0]).find? (fun v => decide (v ≠ (default : Nat))) =
      some (runWrites (default : Nat) ([0, 5] ++ [7, 0])) :=
  ⟨by decide,
   (latch_first_value [0, 5] [7, 0]).1 (by decide),
   (latch_first_value [0, 5] [7, 0]).2 (by decide)⟩

/-- Claim C5: `AggregateValue<T>::operator=` returns true iff the written
value is non-default, and the returned value does not depend on the current
latched state (in particular it is the same when a non-default value was
already latched and no store happens). -/
theorem agg_write_return {T : Type} [DecidableEq T] [Inhabited T] (c₁ c₂ v : T) :
    ((aggWrite c₁ v).2 = true ↔ v ≠ default) ∧
    (aggWrite c₁ v).2 = (aggWrite c₂ v).2 := by
  constructor
  · simp [aggWrite]
  · rfl

/-! ## Claim C4 -/

/-- Claim C4: for every `KeyIndex` whose fields satisfy the representation
bounds of `unsigned` arithmetic without wraparound (`start ≤ end`,
`end < 2 ^ 32`, `start + step < 2 ^ 32`, `end - start + 1 < 2 ^ 32`),
`HasSingleKey()` is true iff `bonus = 0` and `start + step ≥ end`, and
`num_args()` equals `end - start` plus one exactly when `bonus > 0`;
in particular the three concrete examples of the claim hold. -/
theorem key_index_arith :
    (∀ k : KeyIndex, k.start ≤ k.«end» → k.«end» < 2 ^ 32 → k.start + k.step < 2 ^ 32 →
      k.«end» - k.start + 1 < 2 ^ 32 →
      (k.HasSingleKey = true ↔ (k.bonus = 0 ∧ k.«end» ≤ k.start + k.step)) ∧
      k.num_args = k.«end» - k.start + (if 0 < k.bonus then 1 else 0)) ∧
    ((⟨0, 0, 1, 1⟩ : KeyIndex).HasSingleKey = true ∧
      (⟨0, 0, 1, 1⟩ : KeyIndex).num_args = 1) ∧
    ((⟨0, 1, 5, 2⟩ : KeyIndex).num_args = 4 ∧
      (⟨0, 1, 5, 2⟩ : KeyIndex).HasSingleKey = false) ∧
    (⟨1, 0, 2, 1⟩ : KeyIndex).num_args = 3 := by
  refine ⟨?_, by decide, by decide, by decide⟩
  intro k h1 h2 h3 h4
  constructor
  · simp only [KeyIndex.HasSingleKey, Bool.and_eq_true, beq_iff_eq, decide_eq_true_eq,
      Nat.mod_eq_of_lt h3]
  · by_cases hb : 0 < k.bonus
    · simp only [KeyIndex.num_args, if_pos hb]
      omega
    · simp only [KeyIndex.num_args, if_neg hb]
      omega

/-- Claim C4 witness: the general statement applied at
`{bonus = 1, start = 0, end = 2, step = 1}`. -/
theorem key_index_arith_witness :
    (KeyIndex.HasSingleKey ⟨1, 0, 2, 1⟩ = true ↔ ((1 : Nat) = 0 ∧ (2 : Nat) ≤ 0 + 1)) ∧
    KeyIndex.num_args ⟨1, 0, 2, 1⟩ = 2 - 0 + (if (0 : Nat) < 1 then 1 else 0) :=
  key_index_arith.1 ⟨1, 0, 2, 1⟩ (by decide) (by decide) (by decide) (by decide)

/-! ## Claims C6, C9 and C10 (MemoryCmd::Run) -/

theorem run_usage (args : List String) (N : Nat) (hu : args.getD 1 "" = "USAGE") :
    MemoryCmd.run args N = .long 1 := by
  simp only [MemoryCmd.run]
  rw [hu, if_pos rfl]

theorem run_malloc_parse_ok (args : List String) (N s : Nat)
    (hsub : args.getD 1 "" = "MALLOC-STATS") (hlen : 3 ≤ args.length)
    (hp : simpleAtoiU32 (args.getD 2 "") = some s) :
    MemoryCmd.run args N = .bulkString (s % N) := by
  simp only [MemoryCmd.run]
  rw [hsub, if_neg (by decide : ¬ ("MALLOC-STATS" = "USAGE")), if_pos rfl, if_pos hlen, hp]

theorem run_malloc_parse_fail (args : List String) (N : Nat)
    (hsub : args.getD 1 "" = "MALLOC-STATS") (hlen : 3 ≤ args.length)
    (hp : simpleAtoiU32 (args.getD 2 "") = none) :
    MemoryCmd.run args N = .err .invalidInt := by
  simp only [MemoryCmd.run]
  rw [hsub, if_neg (by decide : ¬ ("MALLOC-STATS" = "USAGE")), if_pos rfl, if_pos hlen, hp]

theorem run_malloc_short (args : List String) (N : Nat)
    (hsub : args.getD 1 "" = "MALLOC-STATS") (hlen : ¬ 3 ≤ args.length) :
    MemoryCmd.run args N = .bulkString (0 % N) := by
  simp only [MemoryCmd.run]
  rw [hsub, if_neg (by decide : ¬ ("MALLOC-STATS" = "USAGE")), if_pos rfl, if_neg hlen]

theorem run_unknown (args : List String) (N : Nat)
    (hu : args.getD 1 "" ≠ "USAGE") (hm : args.getD 1 "" ≠ "MALLOC-STATS") :
    MemoryCmd.run args N = .err (.unknownSubCmd (args.getD 1 "") "MEMORY") := by
  simp only [MemoryCmd.run]
  rw [if_neg hu, if_neg hm]

/-- Claim C6: every integer shard selector parsed by `MEMORY MALLOC-STATS` is
reduced modulo the shard count and the work dispatched to that shard, never
rejected; with 4 shards, selector `7` dispatches to shard `3` and selector `4`
(equal to the shard count) dispatches to shard `0`. -/
theorem malloc_stats_selector_modulo :
    (∀ (args : List String) (N s : Nat),
        args.getD 1 "" = "MALLOC-STATS" → 3 ≤ args.length →
        simpleAtoiU32 (args.getD 2 "") = some s →
        MemoryCmd.run args N = .bulkString (s % N)) ∧
    MemoryCmd.run ["MEMORY", "MALLOC-STATS", "7"] 4 = .bulkString 3 ∧
    MemoryCmd.run ["MEMORY", "MALLOC-STATS", "4"] 4 = .bulkString 0 := by
  exact ⟨run_malloc_parse_ok, by decide, by decide⟩

/-- Claim C6 witness: the general statement applied to
`MEMORY MALLOC-STATS 7` with 4 shards. -/
theorem malloc_stats_selector_modulo_witness :
    MemoryCmd.run ["MEMORY", "MALLOC-STATS", "7"] 4 = .bulkString (7 % 4) :=
  malloc_stats_selector_modulo.1 ["MEMORY", "MALLOC-STATS", "7"] 4 7
    (by decide) (by decide) (by decide)

/-- Claim C9: `MemoryCmd::Run` produces exactly two error categories: a
`MALLOC-STATS` call whose present selector argument fails integer parsing
yields the invalid-integer error, an unrecognized sub-command yields the
unknown-sub-command error naming the `MEMORY` family, and every error reply is
one of those two. -/
theorem memory_run_errors :
    (∀ (args : List String) (N : Nat) (e : ErrReply),
        MemoryCmd.run args N = .err e →
        (args.getD 1 "" = "MALLOC-STATS" ∧ e = .invalidInt ∧ 3 ≤ args.length ∧
          simpleAtoiU32 (args.getD 2 "") = none) ∨
        (args.getD 1 "" ≠ "USAGE" ∧ args.getD 1 "" ≠ "MALLOC-STATS" ∧
          e = .unknownSubCmd (args.getD 1 "") "MEMORY")) ∧
    (∀ (args : List String) (N : Nat),
        args.getD 1 "" = "MALLOC-STATS" → 3 ≤ args.length →
        simpleAtoiU32 (args.getD 2 "") = none →
        MemoryCmd.run args N = .err .invalidInt) ∧
    (∀ (args : List String) (N : Nat),
        args.getD 1 "" ≠ "USAGE" → args.getD 1 "" ≠ "MALLOC-STATS" →
        MemoryCmd.run args N = .err (.unknownSubCmd (args.getD 1 "") "MEMORY")) := by
  refine ⟨?_, run_malloc_parse_fail, run_unknown⟩
  intro args N e hrun
  by_cases hu : args.getD 1 "" = "USAGE"
  · exact Reply.noConfusion ((run_usage args N hu).symm.trans hrun)
  · by_cases hm : args.getD 1 "" = "MALLOC-STATS"
    · left
      by_cases hlen : 3 ≤ args.length
      · cases hp : simpleAtoiU32 (args.getD 2 "") with
        | none =>
          have h := (run_malloc_parse_fail args N hm hlen hp).symm.trans hrun
          injection h with he
          exact ⟨hm, he.symm, hlen, rfl⟩
        | some s =>
          exact Reply.noConfusion ((run_malloc_parse_ok args N s hm hlen hp).symm.trans hrun)
      · exact Reply.noConfusion ((run_malloc_short args N hm hlen).symm.trans hrun)
    · right
      have h := (run_unknown args N hu hm).symm.trans hrun
      injection h with he
      exact ⟨hu, hm, he.symm⟩

/-- Claim C9 witness: the specialized statements applied to
`MEMORY MALLOC-STATS zz` (malformed selector) and `MEMORY FOO` (unknown
sub-command), both with 4 shards. -/
theorem memory_run_errors_witness :
    MemoryCmd.run ["MEMORY", "MALLOC-STATS", "zz"] 4 = .err .invalidInt ∧
    MemoryCmd.run ["MEMORY", "FOO"] 4 = .err (.unknownSubCmd "FOO" "MEMORY") :=
  ⟨memory_run_errors.2.1 ["MEMORY", "MALLOC-STATS", "zz"] 4
      (by decide) (by decide) (by decide),
   memory_run_errors.2.2 ["MEMORY", "FOO"] 4 (by decide) (by decide)⟩

/-- Claim C10: a `MEMORY MALLOC-STATS` invocation with fewer than three
arguments (no shard selector) dispatches to shard 0: the selector defaults to
`0` rather than being required or rejected. -/
theorem malloc_stats_default_selector (args : List String) (N : Nat)
    (hsub : args.getD 1 "" = "MALLOC-STATS") (hlen : args.length < 3) (_hN : 0 < N) :
    MemoryCmd.run args N = .bulkString 0 := by
  have hlen' : ¬ 3 ≤ args.length := by omega
  rw [run_malloc_short args N hsub hlen', Nat.zero_mod]

/-- Claim C10 witness: `MEMORY MALLOC-STATS` with no selector and 4 shards
dispatches to shard 0. -/
theorem malloc_stats_default_selector_witness :
    MemoryCmd.run ["MEMORY", "MALLOC-STATS"] 4 = .bulkString 0 :=
  malloc_stats_default_selector ["MEMORY", "MALLOC-STATS"] 4
    (by decide) (by decide) (by decide)

/-! ## Claims C7 and C8 (block histogram totals and merge) -/

theorem statsLoop_general (entries : List (BlockKey × Nat)) :
    ∀ t : Totals,
      entries.foldl
        (fun t kv =>
          { reserved := t.reserved + kv.2 * kv.1.2.1
            committed := t.committed + kv.2 * kv.1.2.2.1
            used := t.used + kv.2 * kv.1.2.2.2 }) t =
      ⟨t.reserved + (entries.map fun kv => kv.2 * kv.1.2.1).sum,
       t.committed + (entries.map fun kv => kv.2 * kv.1.2.2.1).sum,
       t.used + (entries.map fun kv => kv.2 * kv.1.2.2.2).sum⟩ := by
  induction entries with
  | nil => intro t; simp
  | cons kv l ih =>
    intro t
    rw [List.foldl_cons, ih]
    simp [List.map_cons, List.sum_cons, Nat.add_assoc]

theorem statsLoop_eq_sums (entries : List (BlockKey × Nat)) :
    statsLoop entries =
      ⟨(entries.map fun kv => kv.2 * kv.1.2.1).sum,
       (entries.map fun kv => kv.2 * kv.1.2.2.1).sum,
       (entries.map fun kv => kv.2 * kv.1.2.2.2).sum⟩ := by
  rw [statsLoop, statsLoop_general]
  simp

/-- Claim C7: the totals computed by the `MallocStats` loop over a block
histogram are the sums over its entries of `count * reserved`,
`count * committed` and `count * used`; and merging counts 3 and 2 for the key
`(8, 8, 8, 8)` gives count 5 with all three totals equal to `5 * 8`. -/
theorem malloc_stats_totals :
    (∀ entries : List (BlockKey × Nat),
        statsLoop entries =
          ⟨(entries.map fun kv => kv.2 * kv.1.2.1).sum,
           (entries.map fun kv => kv.2 * kv.1.2.2.1).sum,
           (entries.map fun kv => kv.2 * kv.1.2.2.2).sum⟩) ∧
    mergeReport (fun k => if k = (8, 8, 8, 8) then 3 else 0)
        (fun k => if k = (8, 8, 8, 8) then 2 else 0) (8, 8, 8, 8) = 5 ∧
    statsLoop [((8, 8, 8, 8), 5)] = ⟨5 * 8, 5 * 8, 5 * 8⟩ :=
  ⟨statsLoop_eq_sums, by decide, by decide⟩

theorem mergeReport_eq_add (a b : BlockMap) : mergeReport a b = a + b := rfl

theorem mergeAll_eq_sum (rs : List BlockMap) : mergeAll rs = rs.sum := by
  induction rs with
  | nil => rfl
  | cons a l ih =>
    show mergeReport a (mergeAll l) = (a :: l).sum
    rw [ih, List.sum_cons, mergeReport_eq_add]

/-- Claim C8: merging per-shard block histograms is commutative and
associative, folding any collection of shard reports in any order (any
permutation) yields the same merged histogram, and hence also the same three
totals over any key list. -/
theorem merge_comm_assoc :
    (∀ a b : BlockMap, mergeReport a b = mergeReport b a) ∧
    (∀ a b c : BlockMap,
        mergeReport (mergeReport a b) c = mergeReport a (mergeReport b c)) ∧
    (∀ rs rs' : List BlockMap, rs.Perm rs' → mergeAll rs = mergeAll rs') ∧
    (∀ (keys : List BlockKey) (rs rs' : List BlockMap), rs.Perm rs' →
        statsLoop (entriesOf keys (mergeAll rs)) =
          statsLoop (entriesOf keys (mergeAll rs'))) := by
  have hperm : ∀ rs rs' : List BlockMap, rs.Perm rs' → mergeAll rs = mergeAll rs' := by
    intro rs rs' hp
    rw [mergeAll_eq_sum, mergeAll_eq_sum]
    exact hp.sum_eq
  refine ⟨?_, ?_, hperm, ?_⟩
  · intro a b
    funext k
    exact Nat.add_comm (a k) (b k)
  · intro a b c
    funext k
    exact Nat.add_assoc (a k) (b k) (c k)
  · intro keys rs rs' hp
    rw [hperm rs rs' hp]

/-- Claim C8 witness: two concrete shard reports merged in both orders give
the same aggregate report and the same totals over the key `(8, 8, 8, 8)`. -/
theorem merge_comm_assoc_witness :
    mergeAll [(fun _ => 3), (fun _ => 2)] = mergeAll [(fun _ => 2), (fun _ => 3)] ∧
    statsLoop (entriesOf [(8, 8, 8, 8)] (mergeAll [(fun _ => 3), (fun _ => 2)])) =
      statsLoop (entriesOf [(8, 8, 8, 8)] (mergeAll [(fun _ => 2), (fun _ => 3)])) :=
  ⟨merge_comm_assoc.2.2.1 _ _ (List.Perm.swap _ _ _),
   merge_comm_assoc.2.2.2 [(8, 8, 8, 8)] _ _ (List.Perm.swap _ _ _)⟩

end Dragonfly
